import Mathlib

/-!
Verification of the piece-grouping and spatial-interaction engine of the
zen-block-puzzle repository.

The TypeScript sources are shallowly embedded over `ℚ` (JS `number`
arithmetic, idealized as exact rational arithmetic; the spec explicitly
allows ignoring floating-point rounding).  Integer-valued identifiers
(`id`, `groupId`, `zIndex`) are embedded as `ℤ`.

`Math.hypot a b < c` (with `c ≥ 0`) is embedded as the equivalent
square-comparison `a^2 + b^2 < c^2`, which keeps every predicate decidable
and executable over `ℚ`.

The transcendental functions `Math.cos` / `Math.sin` used by the spawn
placement code, and the per-piece random angle offsets, are embedded as
explicit function parameters `c s : ℚ → ℚ` and `ang : ℕ → ℚ`; every
theorem below holds for all choices of these parameters, hence in
particular for (rational approximations of) the real cosine and sine.
-/

/-- `Point` from `types.ts`: a 2D point with numeric coordinates. -/
structure Point where
  x : ℚ
  y : ℚ
deriving DecidableEq, Repr

/-- `PieceDef` from `types.ts`: immutable definition of one puzzle piece. -/
structure PieceDef where
  id : ℤ
  origin : Point
  blocks : List Point
  width : ℚ
  height : ℚ
deriving DecidableEq, Repr

/-- `PieceState` from `types.ts`: mutable runtime state of one spawned piece. -/
structure PieceState where
  id : ℤ
  currentPos : Point
  targetPos : Point
  isLocked : Bool
  zIndex : ℤ
  groupId : ℤ
deriving DecidableEq, Repr

/-- `IMAGE_SIZE` from `constants.ts` (block-puzzle variant). -/
def IMAGE_SIZE : ℚ := 800

/-- `GRID_COLS` from `constants.ts`. -/
def GRID_COLS : ℚ := 8

/-- `BLOCK_SIZE = IMAGE_SIZE / GRID_COLS` from `constants.ts` (= 100). -/
def BLOCK_SIZE : ℚ := IMAGE_SIZE / GRID_COLS

/-- `SNAP_THRESHOLD` from `constants.ts`. -/
def SNAP_THRESHOLD : ℚ := 50

/-- `PIECE_DEFINITIONS` from `constants.ts`: the 16 tetromino-like pieces
tiling the 8×8 grid. -/
def PIECE_DEFINITIONS : List PieceDef := [
  { id := 1, origin := ⟨0, 0⟩, blocks := [⟨0, 0⟩, ⟨1, 0⟩, ⟨0, 1⟩, ⟨1, 1⟩], width := 2, height := 2 },
  { id := 2, origin := ⟨2, 0⟩, blocks := [⟨0, 0⟩, ⟨1, 0⟩, ⟨0, 1⟩, ⟨1, 1⟩], width := 2, height := 2 },
  { id := 3, origin := ⟨4, 0⟩, blocks := [⟨0, 0⟩, ⟨1, 0⟩, ⟨2, 0⟩, ⟨0, 1⟩], width := 3, height := 2 },
  { id := 4, origin := ⟨5, 0⟩, blocks := [⟨2, 0⟩, ⟨0, 1⟩, ⟨1, 1⟩, ⟨2, 1⟩], width := 3, height := 2 },
  { id := 5, origin := ⟨0, 2⟩, blocks := [⟨0, 0⟩, ⟨1, 0⟩, ⟨2, 0⟩, ⟨3, 0⟩], width := 4, height := 1 },
  { id := 6, origin := ⟨0, 3⟩, blocks := [⟨0, 0⟩, ⟨1, 0⟩, ⟨2, 0⟩, ⟨3, 0⟩], width := 4, height := 1 },
  { id := 7, origin := ⟨4, 2⟩, blocks := [⟨0, 0⟩, ⟨0, 1⟩, ⟨1, 1⟩, ⟨2, 1⟩], width := 3, height := 2 },
  { id := 8, origin := ⟨5, 2⟩, blocks := [⟨0, 0⟩, ⟨1, 0⟩, ⟨2, 0⟩, ⟨2, 1⟩], width := 3, height := 2 },
  { id := 9, origin := ⟨0, 4⟩, blocks := [⟨0, 0⟩, ⟨1, 0⟩, ⟨2, 0⟩, ⟨0, 1⟩], width := 3, height := 2 },
  { id := 10, origin := ⟨1, 4⟩, blocks := [⟨2, 0⟩, ⟨0, 1⟩, ⟨1, 1⟩, ⟨2, 1⟩], width := 3, height := 2 },
  { id := 11, origin := ⟨4, 4⟩, blocks := [⟨0, 0⟩, ⟨1, 0⟩, ⟨2, 0⟩, ⟨3, 0⟩], width := 4, height := 1 },
  { id := 12, origin := ⟨4, 5⟩, blocks := [⟨0, 0⟩, ⟨1, 0⟩, ⟨2, 0⟩, ⟨3, 0⟩], width := 4, height := 1 },
  { id := 13, origin := ⟨0, 6⟩, blocks := [⟨0, 0⟩, ⟨0, 1⟩, ⟨1, 1⟩, ⟨2, 1⟩], width := 3, height := 2 },
  { id := 14, origin := ⟨1, 6⟩, blocks := [⟨0, 0⟩, ⟨1, 0⟩, ⟨2, 0⟩, ⟨2, 1⟩], width := 3, height := 2 },
  { id := 15, origin := ⟨4, 6⟩, blocks := [⟨0, 0⟩, ⟨1, 0⟩, ⟨0, 1⟩, ⟨1, 1⟩], width := 2, height := 2 },
  { id := 16, origin := ⟨6, 6⟩, blocks := [⟨0, 0⟩, ⟨1, 0⟩, ⟨0, 1⟩, ⟨1, 1⟩], width := 2, height := 2 }]

/-- `areNeighbors` from `utils/pieceMath.ts`.  The source compares
`Math.hypot(currentDiffX - gridDiffX, currentDiffY - gridDiffY) < SNAP_THRESHOLD`;
this is embedded as the equivalent comparison of squares. -/
def areNeighbors (p1 p2 : PieceState) (pieceDefinitions : List PieceDef) : Bool :=
  match pieceDefinitions.find? (fun d => d.id = p1.id),
        pieceDefinitions.find? (fun d => d.id = p2.id) with
  | some def1, some def2 =>
    let gridDiffX := (def2.origin.x - def1.origin.x) * BLOCK_SIZE
    let gridDiffY := (def2.origin.y - def1.origin.y) * BLOCK_SIZE
    let currentDiffX := p2.currentPos.x - p1.currentPos.x
    let currentDiffY := p2.currentPos.y - p1.currentPos.y
    decide ((currentDiffX - gridDiffX) ^ 2 + (currentDiffY - gridDiffY) ^ 2
      < SNAP_THRESHOLD ^ 2)
  | _, _ => false

/-- `getExpectedPosition` from `utils/pieceMath.ts`. -/
def getExpectedPosition (p1 : PieceState) (p2Id : ℤ)
    (pieceDefinitions : List PieceDef) : Option Point :=
  match pieceDefinitions.find? (fun d => d.id = p1.id),
        pieceDefinitions.find? (fun d => d.id = p2Id) with
  | some def1, some def2 =>
    let diffX := (def2.origin.x - def1.origin.x) * BLOCK_SIZE
    let diffY := (def2.origin.y - def1.origin.y) * BLOCK_SIZE
    some ⟨p1.currentPos.x + diffX, p1.currentPos.y + diffY⟩
  | _, _ => none

/-- `worldToScreen` from `utils/pieceMath.ts`. -/
def worldToScreen (worldPos : Point) (pan : Point) (zoom : ℚ) : Point :=
  ⟨worldPos.x * zoom + pan.x, worldPos.y * zoom + pan.y⟩

/-- `screenToWorld` from `utils/pieceMath.ts`. -/
def screenToWorld (screenPos : Point) (pan : Point) (zoom : ℚ) : Point :=
  ⟨(screenPos.x - pan.x) / zoom, (screenPos.y - pan.y) / zoom⟩

/-- Spec-side definition (§4.1 of the spec): the expected pixel displacement
of piece B's bounding-box origin from piece A's in the solved layout. -/
def expectedOffset (defA defB : PieceDef) : ℚ × ℚ :=
  ((defB.origin.x - defA.origin.x) * BLOCK_SIZE,
   (defB.origin.y - defA.origin.y) * BLOCK_SIZE)

/-- Spec-side definition: squared Euclidean distance between two offset
vectors (the square of the `Math.hypot` distance the source computes). -/
def sqDist (v w : ℚ × ℚ) : ℚ :=
  (v.1 - w.1) ^ 2 + (v.2 - w.2) ^ 2

/-- C3: Coordinate round trip — for every world point `p`, pan `P` and
zoom `z ≠ 0`, `screenToWorld (worldToScreen p P z) P z = p`, exactly, over
the rationals. -/
theorem C3_round_trip (p P : Point) (z : ℚ) (hz : z ≠ 0) :
    screenToWorld (worldToScreen p P z) P z = p := by
  simp only [worldToScreen, screenToWorld]
  cases p with
  | mk px py =>
    simp only [Point.mk.injEq]
    constructor
    · field_simp
    · field_simp

/-- Witness for C3 at a concrete input. -/
theorem C3_round_trip_witness :
    (3 : ℚ) ≠ 0 ∧ screenToWorld (worldToScreen ⟨5, -7⟩ ⟨11, 13⟩ 3) ⟨11, 13⟩ 3 = ⟨5, -7⟩ :=
  ⟨by norm_num, C3_round_trip ⟨5, -7⟩ ⟨11, 13⟩ 3 (by norm_num)⟩

/-- C10: `areNeighbors` is symmetric in its two piece arguments: swapping
the pieces negates both the actual and the expected relative offset, which
leaves the Euclidean distance between them unchanged. -/
theorem C10_areNeighbors_symm (p1 p2 : PieceState) (defs : List PieceDef) :
    areNeighbors p1 p2 defs = areNeighbors p2 p1 defs := by
  unfold areNeighbors
  cases h1 : defs.find? (fun d => d.id = p1.id) with
  | none =>
    cases h2 : defs.find? (fun d => d.id = p2.id) <;> simp
  | some d1 =>
    cases h2 : defs.find? (fun d => d.id = p2.id) with
    | none => simp
    | some d2 =>
      simp only [decide_eq_decide]
      constructor <;> intro h <;> nlinarith [h]

/-- C2: specification of `areNeighbors` — whenever both piece ids resolve
to definitions, the test returns `true` iff the squared Euclidean distance
between the actual current offset of `p2` from `p1` and the expected
solved-layout offset is below the squared snap threshold.  No
grid-adjacency condition appears: the iff holds for arbitrary pairs of
resolvable pieces. -/
theorem C2_areNeighbors_spec (p1 p2 : PieceState) (defs : List PieceDef)
    (d1 d2 : PieceDef)
    (h1 : defs.find? (fun d => d.id = p1.id) = some d1)
    (h2 : defs.find? (fun d => d.id = p2.id) = some d2) :
    areNeighbors p1 p2 defs = true ↔
      sqDist (p2.currentPos.x - p1.currentPos.x, p2.currentPos.y - p1.currentPos.y)
        (expectedOffset d1 d2) < SNAP_THRESHOLD ^ 2 := by
  unfold areNeighbors
  rw [h1, h2]
  simp [sqDist, expectedOffset]

/-- Witness for C2: pieces 1 and 2 with piece 2 placed 10px off its
expected offset from piece 1. -/
theorem C2_areNeighbors_spec_witness :
    PIECE_DEFINITIONS.find? (fun d => d.id = (1 : ℤ)) = some (PIECE_DEFINITIONS.get ⟨0, by decide⟩) ∧
    PIECE_DEFINITIONS.find? (fun d => d.id = (2 : ℤ)) = some (PIECE_DEFINITIONS.get ⟨1, by decide⟩) ∧
    (areNeighbors ⟨1, ⟨0, 0⟩, ⟨0, 0⟩, false, 10, 1⟩ ⟨2, ⟨210, 0⟩, ⟨0, 0⟩, false, 10, 2⟩
        PIECE_DEFINITIONS = true ↔
      sqDist (210 - 0, 0 - 0)
        (expectedOffset (PIECE_DEFINITIONS.get ⟨0, by decide⟩) (PIECE_DEFINITIONS.get ⟨1, by decide⟩))
        < SNAP_THRESHOLD ^ 2) :=
  ⟨by decide, by decide,
   C2_areNeighbors_spec ⟨1, ⟨0, 0⟩, ⟨0, 0⟩, false, 10, 1⟩ ⟨2, ⟨210, 0⟩, ⟨0, 0⟩, false, 10, 2⟩
     PIECE_DEFINITIONS _ _ (by decide) (by decide)⟩

/-- `checkBatchCompletion` from `utils/batchManager.ts`.  The JS
`new Set(pieces.map(p => p.groupId)).size` is embedded as
`(pieces.map groupId).dedup.length`. -/
def checkBatchCompletion (pieces : List PieceState) (totalPieces : ℕ) :
    Bool × Bool :=
  if pieces.isEmpty then (false, false)
  else
    let uniqueGroupsSize := (pieces.map (fun p => p.groupId)).dedup.length
    (decide (uniqueGroupsSize = 1) && decide (pieces.length < totalPieces),
     decide (uniqueGroupsSize = 1) && decide (pieces.length = totalPieces))

/-- C6: completion conditions — for a non-empty piece list,
`isComplete` holds iff the number of distinct `groupId`s is 1 and fewer
pieces than the total are spawned, `isGameComplete` holds iff the number
of distinct `groupId`s is 1 and the spawned count equals the total; for an
empty list both are `false`.  The distinct-group count is expressed
independently via `Finset.card`. -/
theorem C6_checkBatchCompletion_spec (pieces : List PieceState) (totalPieces : ℕ) :
    (pieces = [] → checkBatchCompletion pieces totalPieces = (false, false)) ∧
    (pieces ≠ [] →
      ((checkBatchCompletion pieces totalPieces).1 = true ↔
        (pieces.map (fun p => p.groupId)).toFinset.card = 1 ∧
          pieces.length < totalPieces) ∧
      ((checkBatchCompletion pieces totalPieces).2 = true ↔
        (pieces.map (fun p => p.groupId)).toFinset.card = 1 ∧
          pieces.length = totalPieces)) := by
  constructor
  · intro h
    subst h
    rfl
  · intro h
    have hne : ¬ pieces.isEmpty := by
      simpa [List.isEmpty_iff] using h
    have hcard : (pieces.map (fun p => p.groupId)).toFinset.card =
        (pieces.map (fun p => p.groupId)).dedup.length :=
      List.card_toFinset _
    constructor
    · simp [checkBatchCompletion, hne, hcard]
    · simp [checkBatchCompletion, hne, hcard]

/-- Witness for C6: three pieces all in group 7, total 5 — batch complete,
game not complete. -/
theorem C6_checkBatchCompletion_witness :
    (([⟨1, ⟨0, 0⟩, ⟨0, 0⟩, false, 10, 7⟩, ⟨2, ⟨9, 0⟩, ⟨0, 0⟩, false, 10, 7⟩,
       ⟨3, ⟨0, 9⟩, ⟨0, 0⟩, false, 10, 7⟩] : List PieceState) ≠ []) ∧
    ((checkBatchCompletion
        [⟨1, ⟨0, 0⟩, ⟨0, 0⟩, false, 10, 7⟩, ⟨2, ⟨9, 0⟩, ⟨0, 0⟩, false, 10, 7⟩,
         ⟨3, ⟨0, 9⟩, ⟨0, 0⟩, false, 10, 7⟩] 5).1 = true ↔
      (([⟨1, ⟨0, 0⟩, ⟨0, 0⟩, false, 10, 7⟩, ⟨2, ⟨9, 0⟩, ⟨0, 0⟩, false, 10, 7⟩,
         ⟨3, ⟨0, 9⟩, ⟨0, 0⟩, false, 10, 7⟩] : List PieceState).map
          (fun p => p.groupId)).toFinset.card = 1 ∧
        ([⟨1, ⟨0, 0⟩, ⟨0, 0⟩, false, 10, 7⟩, ⟨2, ⟨9, 0⟩, ⟨0, 0⟩, false, 10, 7⟩,
          ⟨3, ⟨0, 9⟩, ⟨0, 0⟩, false, 10, 7⟩] : List PieceState).length < 5) :=
  ⟨by decide,
   ((C6_checkBatchCompletion_spec
      [⟨1, ⟨0, 0⟩, ⟨0, 0⟩, false, 10, 7⟩, ⟨2, ⟨9, 0⟩, ⟨0, 0⟩, false, 10, 7⟩,
       ⟨3, ⟨0, 9⟩, ⟨0, 0⟩, false, 10, 7⟩] 5).2 (by decide)).1⟩

/-- `Math.max` on two numbers, embedded so that it kernel-evaluates on `ℚ`
(the lattice `max` on `ℚ` does not reduce definitionally).  `qmax a b`
equals `max a b`. -/
def qmax (a b : ℚ) : ℚ := if a < b then b else a

/-- `Math.min` on two numbers; `qmin a b` equals `min a b`. -/
def qmin (a b : ℚ) : ℚ := if b < a then b else a

theorem qmax_eq_max (a b : ℚ) : qmax a b = max a b := by
  unfold qmax
  rcases lt_or_le a b with h | h
  · simp [h, max_eq_right h.le]
  · simp [not_lt.mpr h, max_eq_left h]

theorem qmin_eq_min (a b : ℚ) : qmin a b = min a b := by
  unfold qmin
  rcases lt_or_le b a with h | h
  · simp [h, min_eq_right h.le]
  · simp [not_lt.mpr h, min_eq_left h]

/-- `MIN_ZOOM` from `hooks/useViewportTransform.ts`. -/
def MIN_ZOOM : ℚ := 1 / 5

/-- `MAX_ZOOM` from `hooks/useViewportTransform.ts`. -/
def MAX_ZOOM : ℚ := 3

/-- The clamped new zoom computed by `handleWheel`:
`Math.max(MIN_ZOOM, Math.min(MAX_ZOOM, zoom * delta))` with
`delta = 0.9` when `deltaY > 0` and `1.1` otherwise. -/
def wheelNewZoom (deltaY zoom : ℚ) : ℚ :=
  qmax MIN_ZOOM (qmin MAX_ZOOM (zoom * (if deltaY > 0 then 9 / 10 else 11 / 10)))

/-- `handleWheel` from `hooks/useViewportTransform.ts`, as a pure state
transformer: given the wheel delta sign carrier `deltaY`, the cursor
position `mouse` (already relative to the container), and the current
`pan`/`zoom`, it returns the new `(pan, zoom)`. -/
def handleWheel (deltaY : ℚ) (mouse : Point) (pan : Point) (zoom : ℚ) :
    Point × ℚ :=
  let newZoom := wheelNewZoom deltaY zoom
  if newZoom ≠ zoom then
    let zoomPointX := (mouse.x - pan.x) / zoom
    let zoomPointY := (mouse.y - pan.y) / zoom
    (⟨mouse.x - zoomPointX * newZoom, mouse.y - zoomPointY * newZoom⟩, newZoom)
  else
    (pan, zoom)

/-- C9: wheel zoom is anchor-preserving — whenever the clamped new zoom
`clamp (zoom * d) 0.2 3` (with `d = 0.9` for `deltaY > 0` and `d = 1.1`
otherwise) differs from the old zoom, the handler returns exactly that new
zoom together with `pan' = mouse - worldPointUnderCursor * newZoom`, and
the world point that was under the cursor maps back to the cursor position
under the new transform. -/
theorem C9_wheel_zoom_anchor (deltaY : ℚ) (mouse : Point) (pan : Point)
    (zoom : ℚ) (hz : zoom ≠ 0)
    (hne : wheelNewZoom deltaY zoom ≠ zoom) :
    handleWheel deltaY mouse pan zoom =
        (⟨mouse.x - (screenToWorld mouse pan zoom).x * wheelNewZoom deltaY zoom,
          mouse.y - (screenToWorld mouse pan zoom).y * wheelNewZoom deltaY zoom⟩,
         wheelNewZoom deltaY zoom) ∧
      worldToScreen (screenToWorld mouse pan zoom)
        ⟨mouse.x - (screenToWorld mouse pan zoom).x * wheelNewZoom deltaY zoom,
         mouse.y - (screenToWorld mouse pan zoom).y * wheelNewZoom deltaY zoom⟩
        (wheelNewZoom deltaY zoom) = mouse := by
  constructor
  · simp only [handleWheel, screenToWorld]
    rw [if_pos hne]
  · simp only [worldToScreen, screenToWorld]
    cases mouse with
    | mk mx my =>
      simp only [Point.mk.injEq]
      constructor <;> ring

/-- Witness for C9: zoom 1, wheel up (`deltaY = -1`), cursor at (100, 60),
pan (20, 10); the new zoom is 1.1 and the cursor-anchored world point is
preserved. -/
theorem C9_wheel_zoom_anchor_witness :
    (1 : ℚ) ≠ 0 ∧ wheelNewZoom (-1) 1 ≠ 1 ∧
    (handleWheel (-1) ⟨100, 60⟩ ⟨20, 10⟩ 1 =
        (⟨100 - (screenToWorld ⟨100, 60⟩ ⟨20, 10⟩ 1).x * wheelNewZoom (-1) 1,
          60 - (screenToWorld ⟨100, 60⟩ ⟨20, 10⟩ 1).y * wheelNewZoom (-1) 1⟩,
         wheelNewZoom (-1) 1) ∧
      worldToScreen (screenToWorld ⟨100, 60⟩ ⟨20, 10⟩ 1)
        ⟨100 - (screenToWorld ⟨100, 60⟩ ⟨20, 10⟩ 1).x * wheelNewZoom (-1) 1,
         60 - (screenToWorld ⟨100, 60⟩ ⟨20, 10⟩ 1).y * wheelNewZoom (-1) 1⟩
        (wheelNewZoom (-1) 1) = ⟨100, 60⟩) :=
  ⟨by norm_num,
   by norm_num [wheelNewZoom, qmax, qmin, MIN_ZOOM, MAX_ZOOM],
   C9_wheel_zoom_anchor (-1) ⟨100, 60⟩ ⟨20, 10⟩ 1 (by norm_num)
     (by norm_num [wheelNewZoom, qmax, qmin, MIN_ZOOM, MAX_ZOOM])⟩

/-- `OccupiedRect` from `utils/batchManager.ts`. -/
structure OcRect where
  x : ℚ
  y : ℚ
  w : ℚ
  h : ℚ
deriving DecidableEq, Repr

/-- `BATCH_SIZE` from `utils/batchManager.ts`. -/
def BATCH_SIZE : ℕ := 5

/-- `MARGIN` from `utils/batchManager.ts` (space between pieces). -/
def MARGIN : ℚ := 40

/-- `SPAWN_RADIUS_BASE` from `utils/batchManager.ts`. -/
def SPAWN_RADIUS_BASE : ℚ := 100

/-- `SPAWN_RADIUS_INCREMENT` from `utils/batchManager.ts`. -/
def SPAWN_RADIUS_INCREMENT : ℚ := 50

/-- `MAX_PLACEMENT_ATTEMPTS` from `utils/batchManager.ts`. -/
def MAX_PLACEMENT_ATTEMPTS : ℕ := 50

/-- The axis-aligned rectangle overlap test used inside `findSpawnPosition`
(`testRect.x < r.x + r.w && testRect.x + testRect.w > r.x && ...`). -/
def overlapB (t r : OcRect) : Bool :=
  decide (t.x < r.x + r.w) && decide (t.x + t.w > r.x) &&
    decide (t.y < r.y + r.h) && decide (t.y + t.h > r.y)

/-- The starting radius computed at the top of `findSpawnPosition`:
`occupiedRects.length > 0 ? Math.max(500, occupiedRects.length * SPAWN_RADIUS_INCREMENT) : SPAWN_RADIUS_BASE`. -/
def spawnRadius (occupiedRects : List OcRect) : ℚ :=
  if 0 < occupiedRects.length then
    qmax 500 (occupiedRects.length * SPAWN_RADIUS_INCREMENT)
  else SPAWN_RADIUS_BASE

/-- The attempt loop of `findSpawnPosition` from `utils/batchManager.ts`.
`angle` is the current angle, `attempt` the current attempt index, and
`fuel` the number of attempts left (`MAX_PLACEMENT_ATTEMPTS - attempt` at
the top-level call); `none` means all attempts collided.  `c` and `s`
stand for `Math.cos` and `Math.sin`. -/
def findSpawnGo (c s : ℚ → ℚ) (w h centerX centerY radius : ℚ)
    (occupiedRects : List OcRect) : ℚ → ℕ → ℕ → Option Point
  | _, _, 0 => none
  | angle, attempt, fuel + 1 =>
    let testX := centerX + c angle * (radius + attempt * 20)
    let testY := centerY + s angle * (radius + attempt * 20)
    if occupiedRects.any (fun r =>
        overlapB ⟨testX, testY, w + MARGIN, h + MARGIN⟩ r) then
      findSpawnGo c s w h centerX centerY radius occupiedRects
        (angle + 1 / 2) (attempt + 1) fuel
    else
      some ⟨testX, testY⟩

/-- `findSpawnPosition` from `utils/batchManager.ts`: radial probing with
up to 50 attempts, falling back to a deterministic far-away point. -/
def findSpawnPosition (c s : ℚ → ℚ) (pieceWidth pieceHeight centerX centerY : ℚ)
    (occupiedRects : List OcRect) (batchIndex : ℕ) (angleOffset : ℚ) : Point :=
  match findSpawnGo c s pieceWidth pieceHeight centerX centerY
      (spawnRadius occupiedRects) occupiedRects angleOffset 0
      MAX_PLACEMENT_ATTEMPTS with
  | some p => p
  | none => ⟨centerX + 1000 + batchIndex * 200, centerY⟩

/-- Spec-side: the angle used at attempt `k`, i.e. the initial angle offset
advanced by 0.5 rad per attempt. -/
def spawnAngle (a0 : ℚ) (k : ℕ) : ℚ := a0 + k * (1 / 2)

/-- Spec-side: the candidate point of attempt `k`,
`center + (radius + k*20) * (cos angle_k, sin angle_k)`. -/
def spawnCandidate (c s : ℚ → ℚ) (centerX centerY radius a0 : ℚ) (k : ℕ) : Point :=
  ⟨centerX + c (spawnAngle a0 k) * (radius + k * 20),
   centerY + s (spawnAngle a0 k) * (radius + k * 20)⟩

/-- Spec-side: whether the padded test rectangle of attempt `k`'s candidate
overlaps some occupied rectangle. -/
def spawnCollides (c s : ℚ → ℚ) (w h centerX centerY radius a0 : ℚ)
    (occupiedRects : List OcRect) (k : ℕ) : Bool :=
  occupiedRects.any (fun r =>
    overlapB ⟨(spawnCandidate c s centerX centerY radius a0 k).x,
              (spawnCandidate c s centerX centerY radius a0 k).y,
              w + MARGIN, h + MARGIN⟩ r)

theorem spawnAngle_succ (a0 : ℚ) (k : ℕ) :
    spawnAngle a0 k + 1 / 2 = spawnAngle a0 (k + 1) := by
  unfold spawnAngle
  push_cast
  ring

theorem findSpawnGo_eq_none (c s : ℚ → ℚ) (w h cx cy radius a0 : ℚ)
    (occ : List OcRect) :
    ∀ (fuel attempt : ℕ),
      (∀ i, i < fuel → spawnCollides c s w h cx cy radius a0 occ (attempt + i) = true) →
      findSpawnGo c s w h cx cy radius occ (spawnAngle a0 attempt) attempt fuel = none := by
  intro fuel
  induction fuel with
  | zero => intro attempt _; rfl
  | succ n ih =>
    intro attempt hall
    have h0 : spawnCollides c s w h cx cy radius a0 occ attempt = true := by
      simpa using hall 0 (Nat.succ_pos n)
    have hcond : occ.any (fun r =>
        overlapB ⟨cx + c (spawnAngle a0 attempt) * (radius + attempt * 20),
                  cy + s (spawnAngle a0 attempt) * (radius + attempt * 20),
                  w + MARGIN, h + MARGIN⟩ r) = true := by
      simpa [spawnCollides, spawnCandidate] using h0
    show findSpawnGo c s w h cx cy radius occ (spawnAngle a0 attempt) attempt (n + 1) = none
    rw [findSpawnGo]
    simp only [hcond, if_true]
    rw [spawnAngle_succ]
    exact ih (attempt + 1) (fun i hi => by
      have := hall (i + 1) (Nat.succ_lt_succ hi)
      simpa [Nat.add_assoc, Nat.add_comm 1 i] using this)

theorem findSpawnGo_eq_some (c s : ℚ → ℚ) (w h cx cy radius a0 : ℚ)
    (occ : List OcRect) :
    ∀ (fuel attempt k : ℕ), attempt ≤ k → k < attempt + fuel →
      spawnCollides c s w h cx cy radius a0 occ k = false →
      (∀ j, attempt ≤ j → j < k → spawnCollides c s w h cx cy radius a0 occ j = true) →
      findSpawnGo c s w h cx cy radius occ (spawnAngle a0 attempt) attempt fuel =
        some (spawnCandidate c s cx cy radius a0 k) := by
  intro fuel
  induction fuel with
  | zero =>
    intro attempt k hle hlt
    omega
  | succ n ih =>
    intro attempt k hle hlt hk hprev
    rcases Nat.eq_or_lt_of_le hle with heq | hlt2
    · subst heq
      have hcond : occ.any (fun r =>
          overlapB ⟨cx + c (spawnAngle a0 attempt) * (radius + attempt * 20),
                    cy + s (spawnAngle a0 attempt) * (radius + attempt * 20),
                    w + MARGIN, h + MARGIN⟩ r) = false := by
        simpa [spawnCollides, spawnCandidate] using hk
      show findSpawnGo c s w h cx cy radius occ (spawnAngle a0 attempt) attempt (n + 1) =
        some (spawnCandidate c s cx cy radius a0 attempt)
      rw [findSpawnGo]
      simp only [hcond, if_false, Bool.false_eq_true]
      rfl
    · have hcoll : spawnCollides c s w h cx cy radius a0 occ attempt = true :=
        hprev attempt le_rfl hlt2
      have hcond : occ.any (fun r =>
          overlapB ⟨cx + c (spawnAngle a0 attempt) * (radius + attempt * 20),
                    cy + s (spawnAngle a0 attempt) * (radius + attempt * 20),
                    w + MARGIN, h + MARGIN⟩ r) = true := by
        simpa [spawnCollides, spawnCandidate] using hcoll
      show findSpawnGo c s w h cx cy radius occ (spawnAngle a0 attempt) attempt (n + 1) =
        some (spawnCandidate c s cx cy radius a0 k)
      rw [findSpawnGo]
      simp only [hcond, if_true]
      rw [spawnAngle_succ]
      exact ih (attempt + 1) k hlt2 (by omega) hk
        (fun j hj1 hj2 => hprev j (Nat.le_of_succ_le hj1) hj2)

/-- C5: full characterization of `findSpawnPosition` (total by
construction): the starting radius is `max 500 (#occ * 50)` when occupied
rectangles exist and 100 otherwise; attempt `k` probes
`center + (radius + 20k) * (cos (a0 + k/2), sin (a0 + k/2))`; the first
collision-free padded candidate is returned; if all 50 attempts collide
the result is exactly `(centerX + 1000 + index*200, centerY)`. -/
theorem C5_findSpawnPosition_spec (c s : ℚ → ℚ) (w h cx cy : ℚ)
    (occ : List OcRect) (idx : ℕ) (a0 : ℚ) :
    (spawnRadius occ =
        if 0 < occ.length then max 500 ((occ.length : ℚ) * SPAWN_RADIUS_INCREMENT)
        else SPAWN_RADIUS_BASE) ∧
    ((∀ k, k < MAX_PLACEMENT_ATTEMPTS →
        spawnCollides c s w h cx cy (spawnRadius occ) a0 occ k = true) →
      findSpawnPosition c s w h cx cy occ idx a0 = ⟨cx + 1000 + idx * 200, cy⟩) ∧
    (∀ k, k < MAX_PLACEMENT_ATTEMPTS →
      spawnCollides c s w h cx cy (spawnRadius occ) a0 occ k = false →
      (∀ j, j < k → spawnCollides c s w h cx cy (spawnRadius occ) a0 occ j = true) →
      findSpawnPosition c s w h cx cy occ idx a0 =
        spawnCandidate c s cx cy (spawnRadius occ) a0 k) := by
  refine ⟨?_, ?_, ?_⟩
  · unfold spawnRadius
    by_cases h : 0 < occ.length
    · simp [h, qmax_eq_max]
    · simp [h]
  · intro hall
    have hnone := findSpawnGo_eq_none c s w h cx cy (spawnRadius occ) a0 occ
      MAX_PLACEMENT_ATTEMPTS 0 (fun i hi => by simpa using hall i hi)
    unfold findSpawnPosition
    have ha : spawnAngle a0 0 = a0 := by
      unfold spawnAngle
      push_cast
      ring
    rw [ha] at hnone
    rw [hnone]
  · intro k hk hfree hprev
    have hsome := findSpawnGo_eq_some c s w h cx cy (spawnRadius occ) a0 occ
      MAX_PLACEMENT_ATTEMPTS 0 k (Nat.zero_le k) (by omega) hfree
      (fun j _ hj => hprev j hj)
    unfold findSpawnPosition
    have ha : spawnAngle a0 0 = a0 := by
      unfold spawnAngle
      push_cast
      ring
    rw [ha] at hsome
    rw [hsome]

/-- Witness for C5: with no occupied rectangles the very first candidate is
free, so the result is candidate 0 (at radius `SPAWN_RADIUS_BASE`). -/
theorem C5_findSpawnPosition_spec_witness :
    spawnCollides (fun _ => 1) (fun _ => 0) 10 10 0 0 (spawnRadius []) 0 [] 0 = false ∧
    findSpawnPosition (fun _ => 1) (fun _ => 0) 10 10 0 0 [] 0 0 =
      spawnCandidate (fun _ => 1) (fun _ => 0) 0 0 (spawnRadius []) 0 0 :=
  ⟨rfl,
   (C5_findSpawnPosition_spec (fun _ => 1) (fun _ => 0) 10 10 0 0 [] 0 0).2.2 0
     (by norm_num [MAX_PLACEMENT_ATTEMPTS]) rfl
     (fun j hj => absurd hj (Nat.not_lt_zero j))⟩

/-- `calculateOccupiedRects` from `utils/batchManager.ts`.  The JS
expression `(def?.width || 1)` yields 1 both when the definition is
missing and when its width is 0 (JS falsiness). -/
def calculateOccupiedRects (pieces : List PieceState)
    (pieceDefinitions : List PieceDef) : List OcRect :=
  pieces.map (fun p =>
    match pieceDefinitions.find? (fun d => d.id = p.id) with
    | some d =>
      ⟨p.currentPos.x, p.currentPos.y,
       (if d.width = 0 then 1 else d.width) * BLOCK_SIZE,
       (if d.height = 0 then 1 else d.height) * BLOCK_SIZE⟩
    | none => ⟨p.currentPos.x, p.currentPos.y, 1 * BLOCK_SIZE, 1 * BLOCK_SIZE⟩)

/-- `calculateCenter` from `utils/batchManager.ts`: centroid of the union
bounding box, or the origin if there are no rects.  The JS `reduce`
starting from `{∞, -∞, ∞, -∞}` is embedded, equivalently on non-empty
lists, as a fold seeded with the first rectangle's bounds. -/
def calculateCenter (occupiedRects : List OcRect) : Point :=
  match occupiedRects with
  | [] => ⟨0, 0⟩
  | r0 :: rest =>
    let bounds := rest.foldl
      (fun acc r =>
        (qmin acc.1 r.x, qmax acc.2.1 (r.x + r.w),
         qmin acc.2.2.1 r.y, qmax acc.2.2.2 (r.y + r.h)))
      (r0.x, r0.x + r0.w, r0.y, r0.y + r0.h)
    ⟨(bounds.1 + bounds.2.1) / 2, (bounds.2.2.1 + bounds.2.2.2) / 2⟩

/-- The `batchDefs.forEach` loop of `generateBatchPieces`: `i` is the index
within the batch, `occ` the occupied-rectangle accumulator (the source
pushes each newly placed piece's unpadded rect into it). -/
def generateBatchGo (c s : ℚ → ℚ) (ang : ℕ → ℚ) (cx cy : ℚ) :
    List PieceDef → ℕ → List OcRect → List PieceState
  | [], _, _ => []
  | d :: rest, i, occ =>
    let w := d.width * BLOCK_SIZE
    let h := d.height * BLOCK_SIZE
    let position := findSpawnPosition c s w h cx cy occ i (ang i)
    ⟨d.id, position, ⟨0, 0⟩, false, 10 + d.id, d.id⟩ ::
      generateBatchGo c s ang cx cy rest (i + 1)
        (occ ++ [⟨position.x, position.y, w, h⟩])

/-- `generateBatchPieces` from `utils/batchManager.ts`.  The per-piece
angle offset `Math.PI * 2 * (i / batchDefs.length) + Math.random()` is an
arbitrary real, embedded as the parameter `ang`. -/
def generateBatchPieces (c s : ℚ → ℚ) (ang : ℕ → ℚ) (batchIndex : ℕ)
    (currentPieces : List PieceState) (pieceDefinitions : List PieceDef) :
    List PieceState :=
  let batchDefs := (pieceDefinitions.drop (batchIndex * BATCH_SIZE)).take BATCH_SIZE
  if batchDefs.isEmpty then []
  else
    let occupiedRects := calculateOccupiedRects currentPieces pieceDefinitions
    let center := calculateCenter occupiedRects
    generateBatchGo c s ang center.x center.y batchDefs 0 occupiedRects

/-- Spec-side instrumentation: whether some piece of the batch run took the
fallback branch of `findSpawnPosition` (all 50 attempts collided).
Recomputes exactly the sequence of calls of `generateBatchGo`. -/
def generateBatchGoUsedFallback (c s : ℚ → ℚ) (ang : ℕ → ℚ) (cx cy : ℚ) :
    List PieceDef → ℕ → List OcRect → Bool
  | [], _, _ => false
  | d :: rest, i, occ =>
    let w := d.width * BLOCK_SIZE
    let h := d.height * BLOCK_SIZE
    let position := findSpawnPosition c s w h cx cy occ i (ang i)
    (findSpawnGo c s w h cx cy (spawnRadius occ) occ (ang i) 0
        MAX_PLACEMENT_ATTEMPTS).isNone ||
      generateBatchGoUsedFallback c s ang cx cy rest (i + 1)
        (occ ++ [⟨position.x, position.y, w, h⟩])

/-- Spec-side instrumentation for a whole `generateBatchPieces` call. -/
def generateBatchUsedFallback (c s : ℚ → ℚ) (ang : ℕ → ℚ) (batchIndex : ℕ)
    (currentPieces : List PieceState) (pieceDefinitions : List PieceDef) : Bool :=
  let batchDefs := (pieceDefinitions.drop (batchIndex * BATCH_SIZE)).take BATCH_SIZE
  if batchDefs.isEmpty then false
  else
    let occupiedRects := calculateOccupiedRects currentPieces pieceDefinitions
    let center := calculateCenter occupiedRects
    generateBatchGoUsedFallback c s ang center.x center.y batchDefs 0 occupiedRects

/-- Spec-side: the (unpadded) world bounding rectangle of a spawned piece,
from its definition's dimensions. -/
def pieceRect (d : PieceDef) (p : PieceState) : OcRect :=
  ⟨p.currentPos.x, p.currentPos.y, d.width * BLOCK_SIZE, d.height * BLOCK_SIZE⟩

/-- Spec-side: a rectangle padded by the spawn margin, as the placement
test pads its candidate (`w + MARGIN`, `h + MARGIN`). -/
def paddedOf (r : OcRect) : OcRect := ⟨r.x, r.y, r.w + MARGIN, r.h + MARGIN⟩

theorem findSpawnGo_some_no_overlap (c s : ℚ → ℚ) (w h cx cy radius : ℚ)
    (occ : List OcRect) :
    ∀ (fuel : ℕ) (angle : ℚ) (attempt : ℕ) (p : Point),
      findSpawnGo c s w h cx cy radius occ angle attempt fuel = some p →
      ∀ r ∈ occ, overlapB ⟨p.x, p.y, w + MARGIN, h + MARGIN⟩ r = false := by
  intro fuel
  induction fuel with
  | zero => intro angle attempt p hp; exact absurd hp (by simp [findSpawnGo])
  | succ n ih =>
    intro angle attempt p hp r hr
    rw [findSpawnGo] at hp
    by_cases hc : occ.any (fun r =>
        overlapB ⟨cx + c angle * (radius + attempt * 20),
                  cy + s angle * (radius + attempt * 20),
                  w + MARGIN, h + MARGIN⟩ r) = true
    · simp only [hc, if_true] at hp
      exact ih (angle + 1 / 2) (attempt + 1) p hp r hr
    · have hc' := eq_false_of_ne_true hc
      simp only [hc', Bool.false_eq_true, if_false, Option.some.injEq] at hp
      subst hp
      have := List.any_eq_false.mp hc' r hr
      simpa using this

theorem overlapB_padded_mono (t r : OcRect) (m : ℚ) (hm : 0 ≤ m)
    (hpad : overlapB ⟨t.x, t.y, t.w + m, t.h + m⟩ r = false) :
    overlapB t r = false := by
  rw [Bool.eq_false_iff] at hpad ⊢
  intro hcon
  apply hpad
  simp only [overlapB, Bool.and_eq_true, decide_eq_true_eq] at hcon ⊢
  obtain ⟨⟨⟨h1, h2⟩, h3⟩, h4⟩ := hcon
  refine ⟨⟨⟨h1, by linarith⟩, h3⟩, by linarith⟩

theorem generateBatchGo_no_overlap_inv (c s : ℚ → ℚ) (ang : ℕ → ℚ) (cx cy : ℚ) :
    ∀ (defsL : List PieceDef) (i : ℕ) (occ : List OcRect),
      generateBatchGoUsedFallback c s ang cx cy defsL i occ = false →
      (∀ pr ∈ defsL.zip (generateBatchGo c s ang cx cy defsL i occ),
        ∀ r ∈ occ, overlapB (paddedOf (pieceRect pr.1 pr.2)) r = false) ∧
      List.Pairwise
        (fun a b => overlapB (paddedOf (pieceRect b.1 b.2)) (pieceRect a.1 a.2) = false)
        (defsL.zip (generateBatchGo c s ang cx cy defsL i occ)) := by
  intro defsL
  induction defsL with
  | nil => intro i occ _; exact ⟨by simp [generateBatchGo], by simp [generateBatchGo]⟩
  | cons d rest ih =>
    intro i occ hfb
    rw [generateBatchGoUsedFallback] at hfb
    simp only [Bool.or_eq_false_iff] at hfb
    obtain ⟨hnotnone, hrest⟩ := hfb
    rw [Option.isNone_eq_false_iff, Option.isSome_iff_exists] at hnotnone
    obtain ⟨p, hp⟩ := hnotnone
    have hpos : findSpawnPosition c s (d.width * BLOCK_SIZE) (d.height * BLOCK_SIZE)
        cx cy occ i (ang i) = p := by
      unfold findSpawnPosition
      rw [hp]
    have hhead : ∀ r ∈ occ,
        overlapB ⟨p.x, p.y, d.width * BLOCK_SIZE + MARGIN,
          d.height * BLOCK_SIZE + MARGIN⟩ r = false :=
      findSpawnGo_some_no_overlap c s (d.width * BLOCK_SIZE) (d.height * BLOCK_SIZE)
        cx cy (spawnRadius occ) occ MAX_PLACEMENT_ATTEMPTS (ang i) 0 p hp
    rw [hpos] at hrest
    have ihres := ih (i + 1) (occ ++ [⟨p.x, p.y, d.width * BLOCK_SIZE, d.height * BLOCK_SIZE⟩]) hrest
    rw [generateBatchGo, hpos]
    constructor
    · intro pr hpr r hr
      rw [List.zip_cons_cons, List.mem_cons] at hpr
      rcases hpr with hpr | hpr
      · subst hpr
        exact hhead r hr
      · exact ihres.1 pr hpr r (List.mem_append_left _ hr)
    · rw [List.zip_cons_cons, List.pairwise_cons]
      constructor
      · intro pr hpr
        exact ihres.1 pr hpr _
          (List.mem_append_right _ (List.mem_singleton_self _))
      · exact ihres.2

/-- C4 (amended): within one `generateBatchPieces` call in which no piece
took the fallback path, each later piece's margin-padded rectangle is
disjoint from every earlier piece's unpadded bounding rectangle — in
particular the (unpadded) bounding rectangles of the returned pieces are
pairwise disjoint.  (The original claim — that the *padded* rectangles of
any two returned pieces are disjoint — is refuted by
`C4_counterexample`: the placement test only pads the candidate, not the
already-occupied rectangles.) -/
theorem C4_batch_spawn_nonoverlap (c s : ℚ → ℚ) (ang : ℕ → ℚ) (bi : ℕ)
    (cur : List PieceState) (defs : List PieceDef)
    (hfb : generateBatchUsedFallback c s ang bi cur defs = false) :
    List.Pairwise
      (fun a b =>
        overlapB (paddedOf (pieceRect b.1 b.2)) (pieceRect a.1 a.2) = false ∧
        overlapB (pieceRect b.1 b.2) (pieceRect a.1 a.2) = false)
      (((defs.drop (bi * BATCH_SIZE)).take BATCH_SIZE).zip
        (generateBatchPieces c s ang bi cur defs)) := by
  unfold generateBatchUsedFallback at hfb
  unfold generateBatchPieces
  by_cases hb : ((defs.drop (bi * BATCH_SIZE)).take BATCH_SIZE).isEmpty
  · rw [List.isEmpty_iff] at hb
    simp [hb]
  · simp only [hb, Bool.false_eq_true, if_false] at hfb ⊢
    have hinv := (generateBatchGo_no_overlap_inv c s ang
      (calculateCenter (calculateOccupiedRects cur defs)).x
      (calculateCenter (calculateOccupiedRects cur defs)).y
      ((defs.drop (bi * BATCH_SIZE)).take BATCH_SIZE) 0
      (calculateOccupiedRects cur defs) hfb).2
    refine hinv.imp ?_
    intro a b hab
    refine ⟨hab, ?_⟩
    have hm : (0 : ℚ) ≤ MARGIN := by norm_num [MARGIN]
    exact overlapB_padded_mono (pieceRect b.1 b.2) (pieceRect a.1 a.2) MARGIN hm hab

/-- Witness for C4: batch 0 of the first two piece definitions, spawned
into an empty world with cosine 1 / sine 0 directions: no fallback is
taken and the returned rectangles are disjoint as stated. -/
theorem C4_batch_spawn_nonoverlap_witness :
    generateBatchUsedFallback (fun _ => 1) (fun _ => 0) (fun _ => 0) 0 []
      (PIECE_DEFINITIONS.take 2) = false ∧
    List.Pairwise
      (fun a b =>
        overlapB (paddedOf (pieceRect b.1 b.2)) (pieceRect a.1 a.2) = false ∧
        overlapB (pieceRect b.1 b.2) (pieceRect a.1 a.2) = false)
      ((((PIECE_DEFINITIONS.take 2).drop (0 * BATCH_SIZE)).take BATCH_SIZE).zip
        (generateBatchPieces (fun _ => 1) (fun _ => 0) (fun _ => 0) 0 []
          (PIECE_DEFINITIONS.take 2))) := by
  have hfb : generateBatchUsedFallback (fun _ => 1) (fun _ => 0) (fun _ => 0) 0 []
      (PIECE_DEFINITIONS.take 2) = false := by
    norm_num [generateBatchUsedFallback, generateBatchGoUsedFallback,
      calculateOccupiedRects, calculateCenter, findSpawnPosition, findSpawnGo,
      spawnRadius, qmax, overlapB, MARGIN, BLOCK_SIZE, IMAGE_SIZE, GRID_COLS,
      SPAWN_RADIUS_BASE, SPAWN_RADIUS_INCREMENT, MAX_PLACEMENT_ATTEMPTS,
      BATCH_SIZE, PIECE_DEFINITIONS]
  exact ⟨hfb, C4_batch_spawn_nonoverlap (fun _ => 1) (fun _ => 0) (fun _ => 0) 0 []
    (PIECE_DEFINITIONS.take 2) hfb⟩

/-- Cosine values of the real angles used in `C4_counterexample`
(the five per-piece spawn directions (0,-1), (4/5,-3/5), (0,1), (-1,0),
(0,-1) all lie on the unit circle, so they are realizable by real angle
offsets). -/
def cexCos : ℚ → ℚ := fun a =>
  if a = 0 then 0 else if a = 1 then 4 / 5 else if a = 2 then 0
  else if a = 3 then -1 else if a = 4 then 0 else 1

/-- Sine values of the real angles used in `C4_counterexample`. -/
def cexSin : ℚ → ℚ := fun a =>
  if a = 0 then -1 else if a = 1 then -3 / 5 else if a = 2 then 1
  else if a = 3 then 0 else if a = 4 then -1 else 0


/-- If the attempt-0 candidate is already collision-free,
`findSpawnPosition` returns it. -/
theorem findSpawnPosition_first_free (c s : ℚ → ℚ) (w h cx cy : ℚ)
    (occ : List OcRect) (idx : ℕ) (a0 : ℚ)
    (h0 : spawnCollides c s w h cx cy (spawnRadius occ) a0 occ 0 = false) :
    findSpawnPosition c s w h cx cy occ idx a0 =
      spawnCandidate c s cx cy (spawnRadius occ) a0 0 := by
  have hsome := findSpawnGo_eq_some c s w h cx cy (spawnRadius occ) a0 occ
    MAX_PLACEMENT_ATTEMPTS 0 0 le_rfl (by norm_num [MAX_PLACEMENT_ATTEMPTS]) h0
    (fun j hj1 hj2 => absurd (Nat.lt_of_le_of_lt hj1 hj2) (Nat.lt_irrefl 0))
  unfold findSpawnPosition
  have ha : spawnAngle a0 0 = a0 := by
    unfold spawnAngle
    push_cast
    ring
  rw [ha] at hsome
  rw [hsome]

/-- If the attempt-0 candidate is collision-free, the attempt loop does not
exhaust its 50 attempts (no fallback). -/
theorem findSpawnGo_top_isNone_false (c s : ℚ → ℚ) (w h cx cy radius : ℚ)
    (occ : List OcRect) (a0 : ℚ)
    (h0 : spawnCollides c s w h cx cy radius a0 occ 0 = false) :
    (findSpawnGo c s w h cx cy radius occ a0 0 MAX_PLACEMENT_ATTEMPTS).isNone = false := by
  have hsome := findSpawnGo_eq_some c s w h cx cy radius a0 occ
    MAX_PLACEMENT_ATTEMPTS 0 0 le_rfl (by norm_num [MAX_PLACEMENT_ATTEMPTS]) h0
    (fun j hj1 hj2 => absurd (Nat.lt_of_le_of_lt hj1 hj2) (Nat.lt_irrefl 0))
  have ha : spawnAngle a0 0 = a0 := by
    unfold spawnAngle
    push_cast
    ring
  rw [ha] at hsome
  rw [hsome]
  rfl

/-- C4 (counterexample to the claim as stated): spawning batch 1 of
`PIECE_DEFINITIONS` into an empty world with per-piece angle offsets
0,1,2,3,4 whose cosine/sine values are the unit vectors
(0,-1), (4/5,-3/5), (0,1), (-1,0), (0,-1), no piece takes the fallback
path, yet the margin-padded bounding rectangles of the first two returned
pieces (placed at (0,-100), size 400×100, and at (400,-300), size
300×200) overlap each other: the placement test only keeps a later
piece's padded rectangle away from earlier *unpadded* rectangles, so two
padded rectangles may still intersect. -/
theorem C4_counterexample :
    generateBatchUsedFallback cexCos cexSin (fun i => (i : ℚ)) 1 []
      PIECE_DEFINITIONS = false ∧
    (((PIECE_DEFINITIONS.drop (1 * BATCH_SIZE)).take BATCH_SIZE).zip
        (generateBatchPieces cexCos cexSin (fun i => (i : ℚ)) 1 []
          PIECE_DEFINITIONS)).map (fun pr => pieceRect pr.1 pr.2) =
      [⟨0, -100, 400, 100⟩, ⟨400, -300, 300, 200⟩, ⟨0, 500, 300, 200⟩,
       ⟨-500, 0, 300, 200⟩, ⟨0, -500, 300, 200⟩] ∧
    overlapB (paddedOf ⟨0, -100, 400, 100⟩) (paddedOf ⟨400, -300, 300, 200⟩) = true ∧
    overlapB (paddedOf ⟨400, -300, 300, 200⟩) (paddedOf ⟨0, -100, 400, 100⟩) = true := by
  have hc0 : spawnCollides cexCos cexSin 400 100 0 0 (spawnRadius []) 0 [] 0 = false := rfl
  have hc1 : spawnCollides cexCos cexSin 300 200 0 0
      (spawnRadius [⟨0, -100, 400, 100⟩]) 1 [⟨0, -100, 400, 100⟩] 0 = false := by
    norm_num [spawnCollides, spawnCandidate, spawnAngle, spawnRadius, qmax,
      SPAWN_RADIUS_INCREMENT, overlapB, cexCos, cexSin, MARGIN]
  have hc2 : spawnCollides cexCos cexSin 300 200 0 0
      (spawnRadius [⟨0, -100, 400, 100⟩, ⟨400, -300, 300, 200⟩]) 2
      [⟨0, -100, 400, 100⟩, ⟨400, -300, 300, 200⟩] 0 = false := by
    norm_num [spawnCollides, spawnCandidate, spawnAngle, spawnRadius, qmax,
      SPAWN_RADIUS_INCREMENT, overlapB, cexCos, cexSin, MARGIN]
  have hc3 : spawnCollides cexCos cexSin 300 200 0 0
      (spawnRadius [⟨0, -100, 400, 100⟩, ⟨400, -300, 300, 200⟩, ⟨0, 500, 300, 200⟩]) 3
      [⟨0, -100, 400, 100⟩, ⟨400, -300, 300, 200⟩, ⟨0, 500, 300, 200⟩] 0 = false := by
    norm_num [spawnCollides, spawnCandidate, spawnAngle, spawnRadius, qmax,
      SPAWN_RADIUS_INCREMENT, overlapB, cexCos, cexSin, MARGIN]
  have hc4 : spawnCollides cexCos cexSin 300 200 0 0
      (spawnRadius [⟨0, -100, 400, 100⟩, ⟨400, -300, 300, 200⟩, ⟨0, 500, 300, 200⟩,
        ⟨-500, 0, 300, 200⟩]) 4
      [⟨0, -100, 400, 100⟩, ⟨400, -300, 300, 200⟩, ⟨0, 500, 300, 200⟩,
        ⟨-500, 0, 300, 200⟩] 0 = false := by
    norm_num [spawnCollides, spawnCandidate, spawnAngle, spawnRadius, qmax,
      SPAWN_RADIUS_INCREMENT, overlapB, cexCos, cexSin, MARGIN]
  have e0 : findSpawnPosition cexCos cexSin 400 100 0 0 [] 0 0 = ⟨0, -100⟩ := by
    rw [findSpawnPosition_first_free _ _ _ _ _ _ _ _ _ hc0]
    norm_num [spawnCandidate, spawnAngle, spawnRadius, SPAWN_RADIUS_BASE, cexCos, cexSin]
  have e1 : findSpawnPosition cexCos cexSin 300 200 0 0 [⟨0, -100, 400, 100⟩] 1 1 =
      ⟨400, -300⟩ := by
    rw [findSpawnPosition_first_free _ _ _ _ _ _ _ _ _ hc1]
    norm_num [spawnCandidate, spawnAngle, spawnRadius, qmax, SPAWN_RADIUS_INCREMENT,
      cexCos, cexSin]
  have e2 : findSpawnPosition cexCos cexSin 300 200 0 0
      [⟨0, -100, 400, 100⟩, ⟨400, -300, 300, 200⟩] 2 2 = ⟨0, 500⟩ := by
    rw [findSpawnPosition_first_free _ _ _ _ _ _ _ _ _ hc2]
    norm_num [spawnCandidate, spawnAngle, spawnRadius, qmax, SPAWN_RADIUS_INCREMENT,
      cexCos, cexSin]
  have e3 : findSpawnPosition cexCos cexSin 300 200 0 0
      [⟨0, -100, 400, 100⟩, ⟨400, -300, 300, 200⟩, ⟨0, 500, 300, 200⟩] 3 3 =
      ⟨-500, 0⟩ := by
    rw [findSpawnPosition_first_free _ _ _ _ _ _ _ _ _ hc3]
    norm_num [spawnCandidate, spawnAngle, spawnRadius, qmax, SPAWN_RADIUS_INCREMENT,
      cexCos, cexSin]
  have e4 : findSpawnPosition cexCos cexSin 300 200 0 0
      [⟨0, -100, 400, 100⟩, ⟨400, -300, 300, 200⟩, ⟨0, 500, 300, 200⟩,
        ⟨-500, 0, 300, 200⟩] 4 4 = ⟨0, -500⟩ := by
    rw [findSpawnPosition_first_free _ _ _ _ _ _ _ _ _ hc4]
    norm_num [spawnCandidate, spawnAngle, spawnRadius, qmax, SPAWN_RADIUS_INCREMENT,
      cexCos, cexSin]
  have f0 := findSpawnGo_top_isNone_false cexCos cexSin 400 100 0 0 _ _ _ hc0
  have f1 := findSpawnGo_top_isNone_false cexCos cexSin 300 200 0 0 _ _ _ hc1
  have f2 := findSpawnGo_top_isNone_false cexCos cexSin 300 200 0 0 _ _ _ hc2
  have f3 := findSpawnGo_top_isNone_false cexCos cexSin 300 200 0 0 _ _ _ hc3
  have f4 := findSpawnGo_top_isNone_false cexCos cexSin 300 200 0 0 _ _ _ hc4
  refine ⟨?_, ?_, ?_, ?_⟩
  · norm_num [generateBatchUsedFallback, generateBatchGoUsedFallback,
      calculateOccupiedRects, calculateCenter, BATCH_SIZE, PIECE_DEFINITIONS,
      BLOCK_SIZE, IMAGE_SIZE, GRID_COLS, e0, e1, e2, e3, e4, f0, f1, f2, f3, f4]
  · norm_num [generateBatchPieces, generateBatchGo, calculateOccupiedRects,
      calculateCenter, BATCH_SIZE, PIECE_DEFINITIONS, BLOCK_SIZE, IMAGE_SIZE,
      GRID_COLS, e0, e1, e2, e3, e4, pieceRect]
  · norm_num [overlapB, paddedOf, MARGIN]
  · norm_num [overlapB, paddedOf, MARGIN]

/-- The nested merge search of `handlePointerUp`: for a fixed source piece,
the first target piece that passes `areNeighbors` and yields a non-null
`getExpectedPosition` (the source `continue`s on a null ideal position). -/
def findMergeTarget (sPiece : PieceState) (targets : List PieceState)
    (defs : List PieceDef) : Option (PieceState × Point) :=
  targets.findSome? (fun t =>
    if areNeighbors sPiece t defs then
      (getExpectedPosition t sPiece.id defs).map (fun ip => (t, ip))
    else none)

/-- The outer loop of `handlePointerUp`'s merge search: first source piece
with a matching target (the `merged` flag / `break` control flow). -/
def findMergePair (sources targets : List PieceState) (defs : List PieceDef) :
    Option (PieceState × PieceState × Point) :=
  sources.findSome? (fun sPiece =>
    (findMergeTarget sPiece targets defs).map (fun ti => (sPiece, ti.1, ti.2)))

/-- `handlePointerUp` from `hooks/usePieceInteraction.ts`, as a pure state
transformer on the piece list (the `setIsPanning(false)` and
`setMismatchLine(null)` effects concern other state).  `activeId = 0`
models the falsy `dragRef` guard (`if (!activeId) return`). -/
def handlePointerUp (pieces : List PieceState) (activeId : ℤ)
    (defs : List PieceDef) : List PieceState :=
  if activeId = 0 then pieces
  else
    match pieces.find? (fun p => p.id = activeId) with
    | none => pieces
    | some draggedPiece =>
      let sourceGroupId := draggedPiece.groupId
      let sourceGroupPieces := pieces.filter (fun p => p.groupId = sourceGroupId)
      let targetGroupPieces := pieces.filter (fun p => p.groupId ≠ sourceGroupId)
      match findMergePair sourceGroupPieces targetGroupPieces defs with
      | some (sPiece, tPiece, idealPos) =>
        let adjustX := idealPos.x - sPiece.currentPos.x
        let adjustY := idealPos.y - sPiece.currentPos.y
        pieces.map (fun p =>
          if p.groupId = sourceGroupId then
            { p with
              currentPos := ⟨p.currentPos.x + adjustX, p.currentPos.y + adjustY⟩,
              groupId := tPiece.groupId,
              zIndex := 10 }
          else p)
      | none =>
        pieces.map (fun p =>
          if p.groupId = sourceGroupId then { p with zIndex := 10 } else p)

/-- C8: if no piece of the dragged group is an `areNeighbors` match with
any piece of another group, the release leaves every piece's position and
group unchanged and only resets the dragged group's z-order to 10. -/
theorem C8_no_match_release (pieces : List PieceState) (activeId : ℤ)
    (defs : List PieceDef) (dragged : PieceState)
    (hact : activeId ≠ 0)
    (hfind : pieces.find? (fun p => p.id = activeId) = some dragged)
    (hnomatch : ∀ s ∈ pieces, s.groupId = dragged.groupId →
      ∀ t ∈ pieces, t.groupId ≠ dragged.groupId → areNeighbors s t defs = false) :
    handlePointerUp pieces activeId defs =
      pieces.map (fun p =>
        if p.groupId = dragged.groupId then { p with zIndex := 10 } else p) ∧
    (handlePointerUp pieces activeId defs).map (fun p => p.currentPos) =
      pieces.map (fun p => p.currentPos) ∧
    (handlePointerUp pieces activeId defs).map (fun p => p.groupId) =
      pieces.map (fun p => p.groupId) := by
  have hnone : findMergePair (pieces.filter (fun p => p.groupId = dragged.groupId))
      (pieces.filter (fun p => p.groupId ≠ dragged.groupId)) defs = none := by
    rw [findMergePair, List.findSome?_eq_none_iff]
    intro s hs
    rw [List.mem_filter] at hs
    have hs1 := hs.1
    have hs2 := of_decide_eq_true hs.2
    rw [Option.map_eq_none']
    rw [findMergeTarget, List.findSome?_eq_none_iff]
    intro t ht
    rw [List.mem_filter] at ht
    have ht1 := ht.1
    have ht2 := of_decide_eq_true ht.2
    rw [hnomatch s hs1 hs2 t ht1 ht2]
    simp
  have hmain : handlePointerUp pieces activeId defs =
      pieces.map (fun p =>
        if p.groupId = dragged.groupId then { p with zIndex := 10 } else p) := by
    unfold handlePointerUp
    rw [if_neg hact, hfind]
    simp only [hnone]
  refine ⟨hmain, ?_, ?_⟩
  · rw [hmain, List.map_map]
    apply List.map_congr_left
    intro p _
    by_cases h : p.groupId = dragged.groupId <;> simp [h]
  · rw [hmain, List.map_map]
    apply List.map_congr_left
    intro p _
    by_cases h : p.groupId = dragged.groupId <;> simp [h]

/-- C1 (amended): merge correctness on release for a two-piece world — if
the spawned pieces are exactly A and B (in either order), in distinct
(hence singleton) groups, both ids resolve to definitions, B lies within
the snap threshold of `A.position + expectedOffset(A,B)`, and the release
handler runs with B as the dragged piece, then afterwards B carries A's
`groupId` and sits *exactly* at `A.position + expectedOffset(A,B)`, while
A is unchanged.  (The original claim, for a world that may contain further
pieces, is refuted by `C1_counterexample`: a third piece, earlier in scan
order, can intercept the merge.) -/
theorem C1_merge_two_singletons (A B : PieceState) (defs : List PieceDef)
    (dA dB : PieceDef) (l : List PieceState)
    (hl : l = [A, B] ∨ l = [B, A])
    (hA : defs.find? (fun d => d.id = A.id) = some dA)
    (hB : defs.find? (fun d => d.id = B.id) = some dB)
    (hid : A.id ≠ B.id)
    (hBid : B.id ≠ 0)
    (hgroup : A.groupId ≠ B.groupId)
    (hnear : sqDist (B.currentPos.x - A.currentPos.x, B.currentPos.y - A.currentPos.y)
      (expectedOffset dA dB) < SNAP_THRESHOLD ^ 2) :
    (handlePointerUp l B.id defs).find? (fun p => p.id = A.id) = some A ∧
    (handlePointerUp l B.id defs).find? (fun p => p.id = B.id) =
      some { B with
        currentPos := ⟨A.currentPos.x + (expectedOffset dA dB).1,
                       A.currentPos.y + (expectedOffset dA dB).2⟩,
        groupId := A.groupId,
        zIndex := 10 } := by
  have hneig : areNeighbors B A defs = true := by
    unfold areNeighbors
    simp only [hB, hA]
    rw [decide_eq_true_eq]
    simp only [sqDist, expectedOffset] at hnear
    ring_nf at hnear ⊢
    linarith
  have hexp : getExpectedPosition A B.id defs =
      some ⟨A.currentPos.x + (expectedOffset dA dB).1,
            A.currentPos.y + (expectedOffset dA dB).2⟩ := by
    unfold getExpectedPosition
    simp only [hA, hB]
    simp [expectedOffset]
  have hargx : B.currentPos.x +
      (A.currentPos.x + (expectedOffset dA dB).1 - B.currentPos.x) =
      A.currentPos.x + (expectedOffset dA dB).1 := by ring
  have hargy : B.currentPos.y +
      (A.currentPos.y + (expectedOffset dA dB).2 - B.currentPos.y) =
      A.currentPos.y + (expectedOffset dA dB).2 := by ring
  rcases hl with rfl | rfl
  · have hfind : [A, B].find? (fun p => p.id = B.id) = some B := by
      simp [List.find?, hid]
    have hsrc : [A, B].filter (fun p => p.groupId = B.groupId) = [B] := by
      simp [List.filter, hgroup]
    have htgt : [A, B].filter (fun p => ¬p.groupId = B.groupId) = [A] := by
      simp [List.filter, hgroup]
    have hpair : findMergePair [B] [A] defs =
        some (B, A, ⟨A.currentPos.x + (expectedOffset dA dB).1,
                     A.currentPos.y + (expectedOffset dA dB).2⟩) := by
      simp [findMergePair, findMergeTarget, List.findSome?, hneig, hexp]
    unfold handlePointerUp
    rw [if_neg hBid, hfind]
    simp only [hsrc, htgt, hpair, List.map_cons, List.map_nil,
      if_neg hgroup, if_pos rfl]
    constructor
    · simp [List.find?]
    · simp [List.find?, decide_eq_false hid]
  · have hfind : [B, A].find? (fun p => p.id = B.id) = some B := by
      simp [List.find?]
    have hsrc : [B, A].filter (fun p => p.groupId = B.groupId) = [B] := by
      simp [List.filter, hgroup]
    have htgt : [B, A].filter (fun p => ¬p.groupId = B.groupId) = [A] := by
      simp [List.filter, hgroup]
    have hpair : findMergePair [B] [A] defs =
        some (B, A, ⟨A.currentPos.x + (expectedOffset dA dB).1,
                     A.currentPos.y + (expectedOffset dA dB).2⟩) := by
      simp [findMergePair, findMergeTarget, List.findSome?, hneig, hexp]
    unfold handlePointerUp
    rw [if_neg hBid, hfind]
    simp only [hsrc, htgt, hpair, List.map_cons, List.map_nil,
      if_neg hgroup, if_pos rfl]
    constructor
    · simp [List.find?, decide_eq_false (Ne.symm hid)]
    · simp [List.find?]

/-- Witness for C1: pieces 1 and 2, B at (195,5), within 50px of the ideal
(200,0); after release B snaps exactly to A.position + (200,0) and joins
group 1. -/
theorem C1_merge_two_singletons_witness :
    ((⟨1, ⟨0, 0⟩, ⟨0, 0⟩, false, 10, 1⟩ : PieceState).id ≠
      (⟨2, ⟨195, 5⟩, ⟨0, 0⟩, false, 10, 2⟩ : PieceState).id) ∧
    sqDist ((195 : ℚ) - 0, (5 : ℚ) - 0)
      (expectedOffset ⟨1, ⟨0, 0⟩, [⟨0, 0⟩, ⟨1, 0⟩, ⟨0, 1⟩, ⟨1, 1⟩], 2, 2⟩
        ⟨2, ⟨2, 0⟩, [⟨0, 0⟩, ⟨1, 0⟩, ⟨0, 1⟩, ⟨1, 1⟩], 2, 2⟩) < SNAP_THRESHOLD ^ 2 ∧
    ((handlePointerUp [⟨1, ⟨0, 0⟩, ⟨0, 0⟩, false, 10, 1⟩,
        ⟨2, ⟨195, 5⟩, ⟨0, 0⟩, false, 10, 2⟩] 2 PIECE_DEFINITIONS).find?
        (fun p => p.id = 1) = some ⟨1, ⟨0, 0⟩, ⟨0, 0⟩, false, 10, 1⟩) ∧
    ((handlePointerUp [⟨1, ⟨0, 0⟩, ⟨0, 0⟩, false, 10, 1⟩,
        ⟨2, ⟨195, 5⟩, ⟨0, 0⟩, false, 10, 2⟩] 2 PIECE_DEFINITIONS).find?
        (fun p => p.id = 2) =
      some ⟨2, ⟨0 + (expectedOffset ⟨1, ⟨0, 0⟩, [⟨0, 0⟩, ⟨1, 0⟩, ⟨0, 1⟩, ⟨1, 1⟩], 2, 2⟩
          ⟨2, ⟨2, 0⟩, [⟨0, 0⟩, ⟨1, 0⟩, ⟨0, 1⟩, ⟨1, 1⟩], 2, 2⟩).1,
        0 + (expectedOffset ⟨1, ⟨0, 0⟩, [⟨0, 0⟩, ⟨1, 0⟩, ⟨0, 1⟩, ⟨1, 1⟩], 2, 2⟩
          ⟨2, ⟨2, 0⟩, [⟨0, 0⟩, ⟨1, 0⟩, ⟨0, 1⟩, ⟨1, 1⟩], 2, 2⟩).2⟩,
        ⟨0, 0⟩, false, 10, 1⟩) := by
  have h := C1_merge_two_singletons
    ⟨1, ⟨0, 0⟩, ⟨0, 0⟩, false, 10, 1⟩ ⟨2, ⟨195, 5⟩, ⟨0, 0⟩, false, 10, 2⟩
    PIECE_DEFINITIONS
    ⟨1, ⟨0, 0⟩, [⟨0, 0⟩, ⟨1, 0⟩, ⟨0, 1⟩, ⟨1, 1⟩], 2, 2⟩
    ⟨2, ⟨2, 0⟩, [⟨0, 0⟩, ⟨1, 0⟩, ⟨0, 1⟩, ⟨1, 1⟩], 2, 2⟩
    [⟨1, ⟨0, 0⟩, ⟨0, 0⟩, false, 10, 1⟩, ⟨2, ⟨195, 5⟩, ⟨0, 0⟩, false, 10, 2⟩]
    (Or.inl rfl)
    (by simp [PIECE_DEFINITIONS, List.find?])
    (by simp [PIECE_DEFINITIONS, List.find?])
    (by norm_num) (by norm_num) (by norm_num)
    (by norm_num [sqDist, expectedOffset, SNAP_THRESHOLD, BLOCK_SIZE, IMAGE_SIZE, GRID_COLS])
  exact ⟨by norm_num,
    by norm_num [sqDist, expectedOffset, SNAP_THRESHOLD, BLOCK_SIZE, IMAGE_SIZE, GRID_COLS],
    h.1, h.2⟩

/-- C1 (counterexample to the claim as stated): with a third singleton
piece C (id 3, group 3, at (400,10)) listed before A (id 1, group 1, at
(0,0)), and B (id 2, group 2) placed exactly at A.position +
expectedOffset(A,B) = (200,0), releasing B merges it with C — the first
match in scan order — not with A: afterwards B's group is 3 ≠ 1 = A's
group and B's position (200,10) differs from A.position +
expectedOffset(A,B) = (200,0). -/
theorem C1_counterexample :
    sqDist ((200 : ℚ) - 0, (0 : ℚ) - 0)
      (expectedOffset ⟨1, ⟨0, 0⟩, [⟨0, 0⟩, ⟨1, 0⟩, ⟨0, 1⟩, ⟨1, 1⟩], 2, 2⟩
        ⟨2, ⟨2, 0⟩, [⟨0, 0⟩, ⟨1, 0⟩, ⟨0, 1⟩, ⟨1, 1⟩], 2, 2⟩) < SNAP_THRESHOLD ^ 2 ∧
    handlePointerUp
      [⟨3, ⟨400, 10⟩, ⟨0, 0⟩, false, 10, 3⟩, ⟨1, ⟨0, 0⟩, ⟨0, 0⟩, false, 10, 1⟩,
       ⟨2, ⟨200, 0⟩, ⟨0, 0⟩, false, 10, 2⟩] 2 PIECE_DEFINITIONS =
      [⟨3, ⟨400, 10⟩, ⟨0, 0⟩, false, 10, 3⟩, ⟨1, ⟨0, 0⟩, ⟨0, 0⟩, false, 10, 1⟩,
       ⟨2, ⟨200, 10⟩, ⟨0, 0⟩, false, 10, 3⟩] ∧
    ((3 : ℤ) ≠ 1) ∧
    ((⟨200, 10⟩ : Point) ≠ ⟨0 + 200, 0 + 0⟩) := by
  refine ⟨?_, ?_, by norm_num, ?_⟩
  · norm_num [sqDist, expectedOffset, SNAP_THRESHOLD, BLOCK_SIZE, IMAGE_SIZE, GRID_COLS]
  · norm_num [handlePointerUp, findMergePair, findMergeTarget, areNeighbors,
      getExpectedPosition, List.find?, List.filter, List.findSome?,
      PIECE_DEFINITIONS, BLOCK_SIZE, IMAGE_SIZE, GRID_COLS, SNAP_THRESHOLD]
  · intro hcon
    rw [Point.mk.injEq] at hcon
    have := hcon.2
    norm_num at this

/-- The drag state captured by `handlePointerDown` in
`hooks/usePieceInteraction.ts` (`dragRef.current`). -/
structure DragState where
  activeId : ℤ
  startPos : Point
  groupOffsets : List (ℤ × ℚ × ℚ)
  mouseStart : Point

/-- The `groupOffsets` map built by `handlePointerDown`: every piece of the
clicked piece's group, keyed by id, mapped to its offset from the clicked
piece. -/
def computeGroupOffsets (pieces : List PieceState) (clickedPiece : PieceState) :
    List (ℤ × ℚ × ℚ) :=
  (pieces.filter (fun p => p.groupId = clickedPiece.groupId)).map
    (fun p => (p.id, p.currentPos.x - clickedPiece.currentPos.x,
               p.currentPos.y - clickedPiece.currentPos.y))

/-- The drag-state capture of `handlePointerDown` (piece branch):
`{ activeId, startPos, groupOffsets, mouseStart }`. -/
def pointerDownDrag (pieces : List PieceState) (clickedPiece : PieceState)
    (mouseWorld : Point) : DragState :=
  ⟨clickedPiece.id, clickedPiece.currentPos,
   computeGroupOffsets pieces clickedPiece, mouseWorld⟩

/-- The piece-repositioning portion of `handlePointerMove` from
`hooks/usePieceInteraction.ts`: every piece whose `groupId` equals the
active piece's `groupId` is placed at `newMainPos` plus its stored offset
(`groupOffsets.get(p.id) || {dx:0,dy:0}`); a failed active-piece lookup
(`undefined` group) matches no piece. -/
def handlePointerMove (pieces : List PieceState) (drag : DragState)
    (currentWorld : Point) : List PieceState :=
  let deltaX := currentWorld.x - drag.mouseStart.x
  let deltaY := currentWorld.y - drag.mouseStart.y
  let newMainPos : Point := ⟨drag.startPos.x + deltaX, drag.startPos.y + deltaY⟩
  pieces.map (fun p =>
    if (pieces.find? (fun x => x.id = drag.activeId)).map (fun x => x.groupId) =
        some p.groupId then
      { p with currentPos :=
          ⟨newMainPos.x + ((drag.groupOffsets.lookup p.id).getD (0, 0)).1,
           newMainPos.y + ((drag.groupOffsets.lookup p.id).getD (0, 0)).2⟩ }
    else p)

/-- Under duplicate-free ids, `find?` by id through an id-preserving map
returns the image of the unique matching piece. -/
theorem find?_map_id_pres (pieces : List PieceState) (f : PieceState → PieceState)
    (hf : ∀ x, (f x).id = x.id) :
    ∀ (p : PieceState), (pieces.map (fun q => q.id)).Nodup → p ∈ pieces →
      (pieces.map f).find? (fun q => q.id = p.id) = some (f p) := by
  induction pieces with
  | nil => intro p _ hp; exact absurd hp (List.not_mem_nil p)
  | cons a rest ih =>
    intro p hnd hp
    rw [List.map_cons, List.nodup_cons] at hnd
    rcases List.mem_cons.mp hp with rfl | hp2
    · rw [List.map_cons, List.find?_cons_of_pos]
      simp [hf]
    · rw [List.map_cons, List.find?_cons_of_neg, ih p hnd.2 hp2]
      have hane : a.id ≠ p.id := by
        intro hcon
        exact hnd.1 (hcon ▸ List.mem_map_of_mem (fun q => q.id) hp2)
      simp [hf, hane]

/-- Under duplicate-free ids, `find?` by a member's id returns that
member. -/
theorem find?_self_of_nodup (pieces : List PieceState) (clicked : PieceState)
    (hnd : (pieces.map (fun q => q.id)).Nodup) (hmem : clicked ∈ pieces) :
    pieces.find? (fun x => x.id = clicked.id) = some clicked := by
  have h := find?_map_id_pres pieces id (fun _ => rfl) clicked hnd hmem
  simpa using h

/-- Under duplicate-free ids, the `groupOffsets` map of `handlePointerDown`
stores, for each group member, exactly its positional offset from the
clicked piece. -/
theorem lookup_computeGroupOffsets (clicked : PieceState) :
    ∀ (pieces : List PieceState), (pieces.map (fun q => q.id)).Nodup →
      ∀ p ∈ pieces, p.groupId = clicked.groupId →
      (computeGroupOffsets pieces clicked).lookup p.id =
        some (p.currentPos.x - clicked.currentPos.x,
              p.currentPos.y - clicked.currentPos.y) := by
  intro pieces
  induction pieces with
  | nil => intro _ p hp; exact absurd hp (List.not_mem_nil p)
  | cons a rest ih =>
    intro hnd p hp hpg
    rw [List.map_cons, List.nodup_cons] at hnd
    rcases List.mem_cons.mp hp with rfl | hp2
    · unfold computeGroupOffsets
      rw [List.filter_cons_of_pos (by simpa using hpg)]
      simp [List.lookup]
    · have hane : a.id ≠ p.id := by
        intro hcon
        exact hnd.1 (hcon ▸ List.mem_map_of_mem (fun q => q.id) hp2)
      have ihres := ih hnd.2 p hp2 hpg
      unfold computeGroupOffsets at ihres ⊢
      by_cases hag : a.groupId = clicked.groupId
      · rw [List.filter_cons_of_pos (by simpa using hag)]
        have hbeq : (p.id == a.id) = false := beq_eq_false_iff_ne.mpr (Ne.symm hane)
        simpa [List.lookup, hbeq] using ihres
      · rw [List.filter_cons_of_neg (by simpa using hag)]
        exact ihres

/-- C7: drag rigidity — after a single pointer-move step of a drag started
by pointer-down on `clicked` (any mouse travel from `m0` to `m1`), any two
pieces that shared the clicked piece's `groupId` at drag start are found
in the updated list with the vector between their positions unchanged. -/
theorem C7_drag_rigidity (pieces : List PieceState) (clicked : PieceState)
    (m0 m1 : Point)
    (hnd : (pieces.map (fun q => q.id)).Nodup)
    (hmem : clicked ∈ pieces)
    (p q : PieceState) (hp : p ∈ pieces) (hq : q ∈ pieces)
    (hpg : p.groupId = clicked.groupId) (hqg : q.groupId = clicked.groupId) :
    ∃ p' q',
      (handlePointerMove pieces (pointerDownDrag pieces clicked m0) m1).find?
        (fun r => r.id = p.id) = some p' ∧
      (handlePointerMove pieces (pointerDownDrag pieces clicked m0) m1).find?
        (fun r => r.id = q.id) = some q' ∧
      p'.currentPos.x - q'.currentPos.x = p.currentPos.x - q.currentPos.x ∧
      p'.currentPos.y - q'.currentPos.y = p.currentPos.y - q.currentPos.y := by
  have hfind : pieces.find? (fun x => x.id = clicked.id) = some clicked :=
    find?_self_of_nodup pieces clicked hnd hmem
  have hmove : handlePointerMove pieces (pointerDownDrag pieces clicked m0) m1 =
      pieces.map (fun r =>
        if some clicked.groupId = some r.groupId then
          { r with currentPos :=
              ⟨clicked.currentPos.x + (m1.x - m0.x) +
                (((computeGroupOffsets pieces clicked).lookup r.id).getD (0, 0)).1,
               clicked.currentPos.y + (m1.y - m0.y) +
                (((computeGroupOffsets pieces clicked).lookup r.id).getD (0, 0)).2⟩ }
        else r) := by
    unfold handlePointerMove pointerDownDrag
    simp only [hfind]
    rfl
  set f : PieceState → PieceState := fun r =>
    if some clicked.groupId = some r.groupId then
      { r with currentPos :=
          ⟨clicked.currentPos.x + (m1.x - m0.x) +
            (((computeGroupOffsets pieces clicked).lookup r.id).getD (0, 0)).1,
           clicked.currentPos.y + (m1.y - m0.y) +
            (((computeGroupOffsets pieces clicked).lookup r.id).getD (0, 0)).2⟩ }
    else r with hf
  have hfid : ∀ x, (f x).id = x.id := by
    intro x
    rw [hf]
    by_cases h : some clicked.groupId = some x.groupId <;> simp [h]
  have hfp := find?_map_id_pres pieces f hfid p hnd hp
  have hfq := find?_map_id_pres pieces f hfid q hnd hq
  refine ⟨f p, f q, by rw [hmove]; exact hfp, by rw [hmove]; exact hfq, ?_, ?_⟩
  · have hlp := lookup_computeGroupOffsets clicked pieces hnd p hp hpg
    have hlq := lookup_computeGroupOffsets clicked pieces hnd q hq hqg
    rw [hf]
    simp only [hpg, hqg, if_pos rfl, hlp, hlq, Option.getD_some, if_true]
    ring
  · have hlp := lookup_computeGroupOffsets clicked pieces hnd p hp hpg
    have hlq := lookup_computeGroupOffsets clicked pieces hnd q hq hqg
    rw [hf]
    simp only [hpg, hqg, if_pos rfl, hlp, hlq, Option.getD_some, if_true]
    ring

/-- Witness for C7: a two-piece group dragged by piece 1; the offset
(300,40) between the pieces is preserved. -/
theorem C7_drag_rigidity_witness :
    (([⟨1, ⟨0, 0⟩, ⟨0, 0⟩, false, 10, 5⟩, ⟨2, ⟨300, 40⟩, ⟨0, 0⟩, false, 10, 5⟩] :
        List PieceState).map (fun q => q.id)).Nodup ∧
    (∃ p' q',
      (handlePointerMove
          [⟨1, ⟨0, 0⟩, ⟨0, 0⟩, false, 10, 5⟩, ⟨2, ⟨300, 40⟩, ⟨0, 0⟩, false, 10, 5⟩]
          (pointerDownDrag
            [⟨1, ⟨0, 0⟩, ⟨0, 0⟩, false, 10, 5⟩, ⟨2, ⟨300, 40⟩, ⟨0, 0⟩, false, 10, 5⟩]
            ⟨1, ⟨0, 0⟩, ⟨0, 0⟩, false, 10, 5⟩ ⟨7, 9⟩) ⟨37, 59⟩).find?
        (fun r => r.id = (⟨1, ⟨0, 0⟩, ⟨0, 0⟩, false, 10, 5⟩ : PieceState).id) = some p' ∧
      (handlePointerMove
          [⟨1, ⟨0, 0⟩, ⟨0, 0⟩, false, 10, 5⟩, ⟨2, ⟨300, 40⟩, ⟨0, 0⟩, false, 10, 5⟩]
          (pointerDownDrag
            [⟨1, ⟨0, 0⟩, ⟨0, 0⟩, false, 10, 5⟩, ⟨2, ⟨300, 40⟩, ⟨0, 0⟩, false, 10, 5⟩]
            ⟨1, ⟨0, 0⟩, ⟨0, 0⟩, false, 10, 5⟩ ⟨7, 9⟩) ⟨37, 59⟩).find?
        (fun r => r.id = (⟨2, ⟨300, 40⟩, ⟨0, 0⟩, false, 10, 5⟩ : PieceState).id) = some q' ∧
      p'.currentPos.x - q'.currentPos.x =
        (⟨1, ⟨0, 0⟩, ⟨0, 0⟩, false, 10, 5⟩ : PieceState).currentPos.x -
          (⟨2, ⟨300, 40⟩, ⟨0, 0⟩, false, 10, 5⟩ : PieceState).currentPos.x ∧
      p'.currentPos.y - q'.currentPos.y =
        (⟨1, ⟨0, 0⟩, ⟨0, 0⟩, false, 10, 5⟩ : PieceState).currentPos.y -
          (⟨2, ⟨300, 40⟩, ⟨0, 0⟩, false, 10, 5⟩ : PieceState).currentPos.y) :=
  ⟨by decide,
   C7_drag_rigidity
     [⟨1, ⟨0, 0⟩, ⟨0, 0⟩, false, 10, 5⟩, ⟨2, ⟨300, 40⟩, ⟨0, 0⟩, false, 10, 5⟩]
     ⟨1, ⟨0, 0⟩, ⟨0, 0⟩, false, 10, 5⟩ ⟨7, 9⟩ ⟨37, 59⟩ (by decide)
     (List.mem_cons_self _ _)
     ⟨1, ⟨0, 0⟩, ⟨0, 0⟩, false, 10, 5⟩ ⟨2, ⟨300, 40⟩, ⟨0, 0⟩, false, 10, 5⟩
     (List.mem_cons_self _ _)
     (List.mem_cons_of_mem _ (List.mem_cons_self _ _))
     rfl rfl⟩

/-- Witness for C8: two singleton pieces far apart (no neighbor match);
releasing piece 1 leaves positions and groups unchanged and resets the
dragged group's z-order. -/
theorem C8_no_match_release_witness :
    ((1 : ℤ) ≠ 0) ∧
    (([⟨1, ⟨0, 0⟩, ⟨0, 0⟩, false, 10, 1⟩, ⟨2, ⟨1000, 1000⟩, ⟨0, 0⟩, false, 10, 2⟩] :
        List PieceState).find? (fun p => p.id = (1 : ℤ)) =
      some ⟨1, ⟨0, 0⟩, ⟨0, 0⟩, false, 10, 1⟩) ∧
    (handlePointerUp
        [⟨1, ⟨0, 0⟩, ⟨0, 0⟩, false, 10, 1⟩, ⟨2, ⟨1000, 1000⟩, ⟨0, 0⟩, false, 10, 2⟩]
        1 PIECE_DEFINITIONS =
      ([⟨1, ⟨0, 0⟩, ⟨0, 0⟩, false, 10, 1⟩, ⟨2, ⟨1000, 1000⟩, ⟨0, 0⟩, false, 10, 2⟩] :
        List PieceState).map (fun p =>
          if p.groupId = (⟨1, ⟨0, 0⟩, ⟨0, 0⟩, false, 10, 1⟩ : PieceState).groupId then
            { p with zIndex := 10 } else p)) ∧
    ((handlePointerUp
        [⟨1, ⟨0, 0⟩, ⟨0, 0⟩, false, 10, 1⟩, ⟨2, ⟨1000, 1000⟩, ⟨0, 0⟩, false, 10, 2⟩]
        1 PIECE_DEFINITIONS).map (fun p => p.currentPos) =
      ([⟨1, ⟨0, 0⟩, ⟨0, 0⟩, false, 10, 1⟩, ⟨2, ⟨1000, 1000⟩, ⟨0, 0⟩, false, 10, 2⟩] :
        List PieceState).map (fun p => p.currentPos)) ∧
    ((handlePointerUp
        [⟨1, ⟨0, 0⟩, ⟨0, 0⟩, false, 10, 1⟩, ⟨2, ⟨1000, 1000⟩, ⟨0, 0⟩, false, 10, 2⟩]
        1 PIECE_DEFINITIONS).map (fun p => p.groupId) =
      ([⟨1, ⟨0, 0⟩, ⟨0, 0⟩, false, 10, 1⟩, ⟨2, ⟨1000, 1000⟩, ⟨0, 0⟩, false, 10, 2⟩] :
        List PieceState).map (fun p => p.groupId)) := by
  have h := C8_no_match_release
    [⟨1, ⟨0, 0⟩, ⟨0, 0⟩, false, 10, 1⟩, ⟨2, ⟨1000, 1000⟩, ⟨0, 0⟩, false, 10, 2⟩]
    1 PIECE_DEFINITIONS ⟨1, ⟨0, 0⟩, ⟨0, 0⟩, false, 10, 1⟩
    (by norm_num)
    (by simp [List.find?])
    (by
      intro s hs hgs t ht hgt
      rcases List.mem_cons.mp hs with rfl | hs2
      · rcases List.mem_cons.mp ht with rfl | ht2
        · exact absurd rfl hgt
        · rcases List.mem_cons.mp ht2 with rfl | ht3
          · norm_num [areNeighbors, PIECE_DEFINITIONS, List.find?, BLOCK_SIZE,
              IMAGE_SIZE, GRID_COLS, SNAP_THRESHOLD]
          · exact absurd ht3 (List.not_mem_nil t)
      · rcases List.mem_cons.mp hs2 with rfl | hs3
        · exact absurd hgs (by norm_num)
        · exact absurd hs3 (List.not_mem_nil s))
  exact ⟨by norm_num, by simp [List.find?], h.1, h.2.1, h.2.2⟩
